import Mathlib

set_option linter.unusedVariables false

/-!
Shallow embedding of the UNO game engine of this repository, taken from the
final, canonical iteration (`src/components/UnoGame.tsx`).  JavaScript arrays
are modelled as `List` in the same order: `Array.prototype.pop` removes the
last element, `unshift` prepends, `slice`/`splice` become `take`/`drop`.
Timestamps are naturals (milliseconds).  Randomness (deck shuffling) is
injected: every operation that shuffles receives the already-shuffled deck as
a parameter, so theorems quantify over all possible shuffles.
-/

inductive CardColor
  | red
  | blue
  | green
  | yellow
  | wild
deriving DecidableEq

inductive CardType
  | number
  | skip
  | reverse
  | draw2
  | wild
  | wild4
deriving DecidableEq

structure UnoCard where
  id : String
  color : CardColor
  type : CardType
  value : Option Nat
deriving DecidableEq

structure Player where
  id : String
  name : String
  hand : List UnoCard
  position : Nat
  isHost : Bool
  seated : Bool
  seatedPosition : Option Nat
deriving DecidableEq

structure Game where
  maxPlayers : Nat
  currentPlayerIndex : Int
  direction : Int
  drawPile : List UnoCard
  discardPile : List UnoCard
  currentColor : CardColor
  lastPlayedCard : Option UnoCard
  playHistory : List (String × String)
  gameState : String
  winnerId : Option String
  players : List Player
  selectedCards : List UnoCard
  stackingTimer : Option Nat
  pendingDrawTotal : Nat
  pendingDrawType : Option CardType
  stackedDiscard : List UnoCard
  scoringEnabled : Bool
  scoreLimit : Option Nat
  matchScores : List (List Nat)
  playerTotalScores : List (String × Nat)
  eliminatedPlayers : List String
  currentMatchNumber : Nat
  finalWinnerId : Option String
deriving DecidableEq

/-- JavaScript `%` (remainder carries the sign of the dividend). -/
def jsMod (a b : Int) : Int := if 0 ≤ a then a % b else -((-a) % b)

/-- JavaScript array subscripting `l[i]` (undefined for out of range or negative). -/
def jsIndex (l : List α) (i : Int) : Option α :=
  if 0 ≤ i then l[i.toNat]? else none

def findIdxP (p : α → Prop) [DecidablePred p] : List α → Option Nat
  | [] => none
  | x :: xs => if p x then some 0 else (findIdxP p xs).map (· + 1)

/-- JavaScript `Array.prototype.findIndex`: index of the first match, `-1` if none. -/
def jsFindIndex (p : α → Prop) [DecidablePred p] (l : List α) : Int :=
  match findIdxP p l with
  | some n => (n : Int)
  | none => -1

def colors : List CardColor := [.red, .blue, .green, .yellow]

def numbers : List Nat := [0, 1, 2, 3, 4, 5, 6, 7, 8, 9]

def colorName : CardColor → String
  | .red => "red"
  | .blue => "blue"
  | .green => "green"
  | .yellow => "yellow"
  | .wild => "wild"

def typeName : CardType → String
  | .number => "number"
  | .skip => "skip"
  | .reverse => "reverse"
  | .draw2 => "draw2"
  | .wild => "wild"
  | .wild4 => "wild4"

def specialTypes : List CardType := [.skip, .reverse, .draw2]

/-- `generateDeck` of the final iteration: two complete 108-card UNO decks. -/
def generateDeck : List UnoCard :=
  (List.range 2).flatMap fun deckNum =>
    (colors.flatMap fun color =>
      { id := colorName color ++ "-0-deck" ++ toString deckNum,
        color := color, type := .number, value := some 0 } ::
      ((numbers.drop 1).flatMap fun num =>
        [{ id := colorName color ++ "-" ++ toString num ++ "-deck" ++ toString deckNum,
           color := color, type := .number, value := some num },
         { id := colorName color ++ "-" ++ toString num ++ "-2-deck" ++ toString deckNum,
           color := color, type := .number, value := some num }]))
    ++ (colors.flatMap fun color =>
      specialTypes.flatMap fun t =>
        [{ id := colorName color ++ "-" ++ typeName t ++ "-deck" ++ toString deckNum,
           color := color, type := t, value := none },
         { id := colorName color ++ "-" ++ typeName t ++ "-2-deck" ++ toString deckNum,
           color := color, type := t, value := none }])
    ++ ((List.range 4).flatMap fun i =>
        [{ id := "wild-" ++ toString i ++ "-deck" ++ toString deckNum,
           color := .wild, type := .wild, value := none },
         { id := "wild4-" ++ toString i ++ "-deck" ++ toString deckNum,
           color := .wild, type := .wild4, value := none }])

/-- Top of the discard pile (`game.discardPile[game.discardPile.length - 1]`). -/
def topCard (g : Game) : Option UnoCard := g.discardPile.getLast?

/-- `canPlayDrawCard`: in draw-response mode only the exactly matching draw kind answers. -/
def canPlayDrawCard (g : Game) (card : UnoCard) : Bool :=
  match g.pendingDrawType with
  | none => false
  | some t =>
    if t = .draw2 ∧ card.type = .draw2 then true
    else if t = .wild4 ∧ card.type = .wild4 then true
    else false

/-- `canPlayCard`, parameterised by the currently selected cards (component state). -/
def canPlayCard (g : Game) (selectedCards : List UnoCard) (card : UnoCard) : Bool :=
  match topCard g with
  | none => false
  | some top =>
    if 0 < g.pendingDrawTotal ∧ g.pendingDrawType.isSome then
      canPlayDrawCard g card
    else if card.color = .wild then true
    else if selectedCards = [] then
      if card.color = g.currentColor then true
      else if card.type = .number ∧ top.type = .number ∧ card.value = top.value then true
      else if card.type = top.type ∧ card.type ≠ .wild ∧ card.type ≠ .wild4 then true
      else false
    else true

/-- Sort key of the seating comparator `(a, b) => a.seatedPosition! - b.seatedPosition!`
(seated players always carry a position; `getD 0` totalises the non-null assertion). -/
def posKey (p : Player) : Nat := p.seatedPosition.getD 0

/-- One step of a stable insertion sort by `posKey` (JavaScript `sort` is stable). -/
def insertSeated (sorted : List Player) (x : Player) : List Player :=
  match sorted with
  | [] => [x]
  | y :: ys => if posKey y ≤ posKey x then y :: insertSeated ys x else x :: y :: ys

/-- `getSeatedPlayers`: the seated players ordered by `seatedPosition`. -/
def getSeatedPlayers (players : List Player) : List Player :=
  (players.filter fun p => p.seated).foldl insertSeated []

/-- `getCurrentSeatedPlayerIndex`: index of the current player within the seated list
(`-1` when the current player is undefined or not seated, exactly as `findIndex`). -/
def getCurrentSeatedPlayerIndex (g : Game) : Int :=
  let seatedPlayers := getSeatedPlayers g.players
  match jsIndex g.players g.currentPlayerIndex with
  | none => -1
  | some cur => jsFindIndex (fun p => p.id = cur.id) seatedPlayers

/-- The `(currentSeatedIndex + direction + length) % length` advancement used verbatim by
both `drawCards` and `handleDrawTimeout`, mapped back to an index into `players`. -/
def forcedNextPlayerIndex (g : Game) : Int :=
  let seatedPlayers := getSeatedPlayers g.players
  let currentSeatedIndex := getCurrentSeatedPlayerIndex g
  let nextSeatedIndex :=
    jsMod (currentSeatedIndex + g.direction + seatedPlayers.length) seatedPlayers.length
  match jsIndex seatedPlayers nextSeatedIndex with
  | some np => jsFindIndex (fun p => p.id = np.id) g.players
  | none => -1

/-- Colour restored after a forced draw: the top discard's colour unless it is wild. -/
def forcedDrawColor (g : Game) : CardColor :=
  match g.discardPile.getLast? with
  | some top => if top.color = .wild then g.currentColor else top.color
  | none => g.currentColor

structure CardEffects where
  nextPlayerIndex : Int
  newDirection : Int
  drawEffects : Nat
  skipEffects : Nat
  skippedPlayers : List String
deriving DecidableEq

/-- The skip loop of `calculateCardEffects`: record each skipped player, advance again. -/
def skipLoop (n : Nat) (idx dir : Int) (sp : List Player) : Int × List String :=
  match n with
  | 0 => (idx, [])
  | m + 1 =>
    let names := match jsIndex sp idx with
      | some p => [p.name]
      | none => []
    let idx2 := jsMod (idx + dir + sp.length) sp.length
    let r := skipLoop m idx2 dir sp
    (r.1, names ++ r.2)

/-- `calculateCardEffects`: direction flips, skip accounting (reverse counts as a skip
with exactly 2 seated players), one unconditional advance, then one more per skip. -/
def calculateCardEffects (g : Game) (cards : List UnoCard) : CardEffects :=
  let seatedPlayers := getSeatedPlayers g.players
  if seatedPlayers.length = 0 then
    { nextPlayerIndex := g.currentPlayerIndex, newDirection := g.direction,
      drawEffects := 0, skipEffects := 0, skippedPlayers := [] }
  else
    let currentSeatedIndex := getCurrentSeatedPlayerIndex g
    let dirSkip := cards.foldl (fun (acc : Int × Nat) c =>
      match c.type with
      | .reverse => (acc.1 * (-1), if seatedPlayers.length = 2 then acc.2 + 1 else acc.2)
      | .skip => (acc.1, acc.2 + 1)
      | _ => acc) (g.direction, 0)
    let newDirection := dirSkip.1
    let skipCount := dirSkip.2
    let firstStep := jsMod (currentSeatedIndex + newDirection + seatedPlayers.length)
      seatedPlayers.length
    let loopRes := skipLoop skipCount firstStep newDirection seatedPlayers
    let nextSeatedIndex := loopRes.1
    let skippedPlayers := loopRes.2
    let finalDirection :=
      if (cards.filter fun c => decide (c.type = .reverse)).length % 2 = 0 ∧
          2 < seatedPlayers.length then
        g.direction
      else newDirection
    let nextPlayerIndex := match jsIndex seatedPlayers nextSeatedIndex with
      | some np => jsFindIndex (fun p => p.id = np.id) g.players
      | none => -1
    { nextPlayerIndex := if nextPlayerIndex ≠ -1 then nextPlayerIndex else g.currentPlayerIndex,
      newDirection := finalDirection, drawEffects := 0,
      skipEffects := skipCount, skippedPlayers := skippedPlayers }

/-- `calculateCardPoints`. -/
def calculateCardPoints (card : UnoCard) : Nat :=
  if card.type = .number then card.value.getD 0
  else if card.type = .skip ∨ card.type = .reverse ∨ card.type = .draw2 then 20
  else if card.type = .wild ∨ card.type = .wild4 then 50
  else 0

/-- `calculatePlayerScore`. -/
def calculatePlayerScore (hand : List UnoCard) : Nat :=
  hand.foldl (fun total card => total + calculateCardPoints card) 0

/-- Removal of one card from a hand by id (`findIndex` + `splice(index, 1)`). -/
def removeById (hand : List UnoCard) (i : String) : List UnoCard :=
  match hand with
  | [] => []
  | x :: xs => if x.id = i then xs else x :: removeById xs i

/-- Removal of all played cards from the acting player's hand, first match per id. -/
def removePlayed (hand : List UnoCard) (cards : List UnoCard) : List UnoCard :=
  cards.foldl (fun h c => removeById h c.id) hand

/-- Predicate for draw-effect cards (`c.type === 'draw2' || c.type === 'wild4'`). -/
def isDrawCard (c : UnoCard) : Bool := decide (c.type = .draw2 ∨ c.type = .wild4)

/-- The action text of a play-history entry, built exactly as in `executeCardPlay`. -/
def playActionText (g : Game) (cards : List UnoCard) (chosenColor : Option CardColor) :
    String :=
  match cards with
  | [card] =>
    if card.type = .wild4 then "wild draw 4"
    else if card.type = .wild then
      "wild-" ++ colorName (chosenColor.getD g.currentColor)
    else if card.type = .number then
      colorName card.color ++ " " ++
        (match card.value with | some v => toString v | none => "undefined")
    else colorName card.color ++ " " ++ typeName card.type
  | _ =>
    match cards.head? with
    | some card =>
      if card.type = .number then
        toString cards.length ++ " " ++
          (match card.value with | some v => toString v | none => "undefined") ++ "s"
      else toString cards.length ++ " " ++ typeName card.type ++ "s"
    | none => ""

/-- `executeCardPlay`: the accepted play of `cards` by the client `pid`, with the chosen
colour for wilds and the current time in milliseconds. -/
def executeCardPlayOp (g : Game) (pid : String) (cards : List UnoCard)
    (chosenColor : Option CardColor) (now : Nat) : Game :=
  match g.players.find? (fun p => decide (p.id = pid)) with
  | none => g
  | some myPlayer =>
    let effects := calculateCardEffects g cards
    let newHand := removePlayed myPlayer.hand cards
    let players1 := g.players.map fun p =>
      if p.id = pid then { p with hand := newHand } else p
    let pending :=
      if cards.any isDrawCard then
        let drawCardsList := cards.filter isDrawCard
        let drawAmount := drawCardsList.foldl
          (fun sum card => sum + (if card.type = .draw2 then 2 else 4)) 0
        let firstType : CardType := match drawCardsList.head? with
          | some c => if c.type = .draw2 then .draw2 else .wild4
          | none => .draw2
        (g.pendingDrawTotal + drawAmount, some firstType, some (now + 6000))
      else if 0 < g.pendingDrawTotal then ((0 : Nat), (none : Option CardType), (none : Option Nat))
      else (g.pendingDrawTotal, g.pendingDrawType, g.stackingTimer)
    let colorCandidate := match chosenColor with
      | some c => c
      | none => match cards.getLast? with
        | some c => c.color
        | none => g.currentColor
    let newColor := if colorCandidate = .wild then g.currentColor else colorCandidate
    let newDiscardPile := g.discardPile ++ cards
    let entries := (myPlayer.name, playActionText g cards chosenColor) ::
      effects.skippedPlayers.map (fun n => (n, "was skipped"))
    { g with players := players1,
             discardPile := newDiscardPile,
             stackedDiscard := cards,
             currentColor := newColor,
             currentPlayerIndex := effects.nextPlayerIndex,
             direction := effects.newDirection,
             playHistory := g.playHistory ++ entries,
             lastPlayedCard := cards.getLast?,
             pendingDrawTotal := pending.1,
             pendingDrawType := pending.2.1,
             stackingTimer := pending.2.2,
             selectedCards := [],
             winnerId := if newHand.length = 0 then some pid else none,
             gameState := if newHand.length = 0 then "ended" else "playing" }

/-- The draw loop of `drawCards`: pop from the end of the pile, prepend to the hand;
`none` when the pile empties first (the whole operation aborts with a toast and
commits no state change). -/
def drawLoopStrict (n : Nat) (hand pile : List UnoCard) :
    Option (List UnoCard × List UnoCard) :=
  match n with
  | 0 => some (hand, pile)
  | m + 1 =>
    match pile.getLast? with
    | none => none
    | some c => drawLoopStrict m (c :: hand) pile.dropLast

/-- The draw loop of `handleDrawTimeout`: pop from the end of the pile, prepend to the
hand, silently skipping once the pile is empty. -/
def drawLoopSkip (n : Nat) (hand pile : List UnoCard) : List UnoCard × List UnoCard :=
  match n with
  | 0 => (hand, pile)
  | m + 1 =>
    match pile.getLast? with
    | none => drawLoopSkip m hand pile
    | some c => drawLoopSkip m (c :: hand) pile.dropLast

/-- `drawCards`: the current player draws voluntarily (the full pending total when a
draw stack is pending, else a single card). -/
def drawCardsOp (g : Game) (pid : String) : Game :=
  match g.players.find? (fun p => decide (p.id = pid)) with
  | none => g
  | some myPlayer =>
    match jsIndex g.players g.currentPlayerIndex with
    | none => g
    | some currentPlayer =>
      if currentPlayer.id ≠ pid then g
      else
        let drawAmount := if 0 < g.pendingDrawTotal then g.pendingDrawTotal else 1
        let shouldSkipTurn := 0 < g.pendingDrawTotal
        match drawLoopStrict drawAmount myPlayer.hand g.drawPile with
        | none => g
        | some hp =>
          let players1 := g.players.map fun p =>
            if p.id = pid then { p with hand := hp.1 } else p
          let nextIdx := if shouldSkipTurn then forcedNextPlayerIndex g
            else g.currentPlayerIndex
          let newColor := if shouldSkipTurn then forcedDrawColor g else g.currentColor
          let entry := if 1 < drawAmount then
              "drew +" ++ toString drawAmount ++ " cards"
            else "drew 1 card"
          { g with drawPile := hp.2,
                   currentPlayerIndex := nextIdx,
                   currentColor := newColor,
                   pendingDrawTotal := if shouldSkipTurn then 0 else g.pendingDrawTotal,
                   pendingDrawType := if shouldSkipTurn then none else g.pendingDrawType,
                   stackingTimer := if shouldSkipTurn then none else g.stackingTimer,
                   playHistory := g.playHistory ++ [(myPlayer.name, entry)],
                   players := players1 }

/-- `handleDrawTimeout`: the draw-response deadline expired on the client `pid`; the
current player force-draws the pending total (as far as the pile allows) and the turn
advances one seat. -/
def handleDrawTimeoutOp (g : Game) (pid : String) : Game :=
  match jsIndex g.players g.currentPlayerIndex with
  | none => g
  | some currentPlayer =>
    if currentPlayer.id ≠ pid then g
    else
      let hp := drawLoopSkip g.pendingDrawTotal currentPlayer.hand g.drawPile
      let players1 := g.players.map fun p =>
        if p.id = currentPlayer.id then { p with hand := hp.1 } else p
      let entry := "drew +" ++ toString g.pendingDrawTotal ++ " cards (timer expired)"
      { g with players := players1,
               currentPlayerIndex := forcedNextPlayerIndex g,
               currentColor := forcedDrawColor g,
               pendingDrawTotal := 0,
               pendingDrawType := none,
               stackingTimer := none,
               drawPile := hp.2,
               playHistory := g.playHistory ++ [(currentPlayer.name, entry)] }

/-- `createGame`: the host starts a session from an already-shuffled deck; seven cards
are dealt from the front, the starting discard is popped from the back. -/
def createGameOp (deck : List UnoCard) (hostId hostName : String)
    (scoringEnabledFlag : Bool) (scoreLimitVal : Nat) : Game :=
  let playerHand := deck.take 7
  let rest := deck.drop 7
  let top := rest.getLast?
  { maxPlayers := 8,
    currentPlayerIndex := 0,
    direction := 1,
    drawPile := rest.dropLast,
    discardPile := top.toList,
    currentColor := match top with
      | some c => if c.color = .wild then .red else c.color
      | none => .red,
    lastPlayedCard := none,
    playHistory := [],
    gameState := "waiting",
    winnerId := none,
    players := [{ id := hostId, name := hostName, hand := playerHand, position := 0,
                  isHost := true, seated := false, seatedPosition := none }],
    selectedCards := [],
    stackingTimer := none,
    pendingDrawTotal := 0,
    pendingDrawType := none,
    stackedDiscard := [],
    scoringEnabled := scoringEnabledFlag,
    scoreLimit := if scoringEnabledFlag then some scoreLimitVal else none,
    matchScores := [],
    playerTotalScores := [],
    eliminatedPlayers := [],
    currentMatchNumber := 1,
    finalWinnerId := none }

/-- `joinGame`: a participant joins with a freshly shuffled deck; the stored draw pile
is replaced by `draw_pile.slice(0, -7)` followed by the fresh deck minus the seven
cards dealt to the joiner. -/
def joinGameOp (g : Game) (newDeck : List UnoCard) (pid pname : String) : Game :=
  if g.maxPlayers ≤ g.players.length then g
  else
    let playerHand := newDeck.take 7
    let deckRest := newDeck.drop 7
    let newDrawPile := g.drawPile.take (g.drawPile.length - 7) ++ deckRest
    { g with drawPile := newDrawPile,
             players := g.players ++
               [{ id := pid, name := pname, hand := playerHand,
                  position := g.players.length, isHost := false,
                  seated := false, seatedPosition := none }],
             playHistory := g.playHistory ++ [(pname, "joined the game")] }

/-- Total number of cards in circulation in a round. -/
def cardCount (g : Game) : Nat :=
  g.drawPile.length + g.discardPile.length +
    (g.players.map fun p => p.hand.length).sum

/-- JavaScript object read `totals[pid] || 0`. -/
def getScore (m : List (String × Nat)) (k : String) : Nat :=
  match m.find? (fun e => decide (e.1 = k)) with
  | some e => e.2
  | none => 0

/-- JavaScript object write `totals[pid] = v` (replace in place or append). -/
def setScore (m : List (String × Nat)) (k : String) (v : Nat) : List (String × Nat) :=
  match m with
  | [] => [(k, v)]
  | e :: rest => if e.1 = k then (k, v) :: rest else e :: setScore rest k v

/-- Pop `n` cards off the end of a pile, returning them in pop order with the rest. -/
def popMany (n : Nat) (pile : List UnoCard) : List UnoCard × List UnoCard :=
  match n with
  | 0 => ([], pile)
  | m + 1 =>
    match pile.getLast? with
    | none => ([], pile)
    | some c =>
      let r := popMany m pile.dropLast
      (c :: r.1, r.2)

/-- The round score `handleMatchEnd` charges to one player (0 for the winner; losers
score their remaining hand, plus an auto-drawn penalty for the seat after the winner
when the winner went out on draw cards). -/
def matchScoreOf (g : Game) (winnerId : String) (player : Player) : Nat :=
  if player.id ≠ winnerId then
    let base := calculatePlayerScore player.hand
    let lastPlayedCards := g.selectedCards
    let hasDrawCards := lastPlayedCards.any isDrawCard
    if hasDrawCards = true ∧ g.scoringEnabled = true then
      let seatedPlayers := getSeatedPlayers g.players
      let winnerSeatedIndex := jsFindIndex (fun p => p.id = winnerId) seatedPlayers
      let nextPlayerSeatedIndex :=
        jsMod (winnerSeatedIndex + g.direction + seatedPlayers.length) seatedPlayers.length
      match jsIndex seatedPlayers nextPlayerSeatedIndex with
      | some nextPlayer =>
        if player.id = nextPlayer.id then
          let drawAmount := lastPlayedCards.foldl (fun sum card =>
            sum + (if card.type = .draw2 then 2 else if card.type = .wild4 then 4 else 0)) 0
          base + ((popMany drawAmount g.drawPile).1.foldl
            (fun sum card => sum + calculateCardPoints card) 0)
        else base
      | none => base
    else base
  else 0

/-- One iteration of the `game.players.forEach` loop in `handleMatchEnd`. -/
def matchEndStep (g : Game) (winnerId : String)
    (acc : List Nat × List (String × Nat) × List String) (player : Player) :
    List Nat × List (String × Nat) × List String :=
  let score := matchScoreOf g winnerId player
  let newTotal := getScore acc.2.1 player.id + score
  let totals := setScore acc.2.1 player.id newTotal
  let elim := if g.scoreLimit.getD 300 ≤ newTotal ∧ ¬ player.id ∈ acc.2.2 then
      acc.2.2 ++ [player.id]
    else acc.2.2
  (acc.1 ++ [score], totals, elim)

/-- `handleMatchEnd`: accumulate the round scores, eliminate players who reached the
score limit, and declare a final winner when exactly one player is left. -/
def handleMatchEndOp (g : Game) (winnerId : String) : Game :=
  if g.scoringEnabled = false then g
  else
    let res := g.players.foldl (matchEndStep g winnerId)
      ([], g.playerTotalScores, g.eliminatedPlayers)
    let remainingPlayers := g.players.filter fun p => decide (¬ p.id ∈ res.2.2)
    let finalWinner := match remainingPlayers with
      | [r] => some r.id
      | _ => none
    { g with matchScores := g.matchScores ++ [res.1],
             playerTotalScores := res.2.1,
             eliminatedPlayers := res.2.2,
             finalWinnerId := finalWinner,
             gameState := "ended" }

/-- The hand the round state stores for the participant `pid`. -/
def handOf (g : Game) (pid : String) : List UnoCard :=
  match g.players.find? (fun p => decide (p.id = pid)) with
  | some p => p.hand
  | none => []

/-- An empty round fixture used by the concrete test states below. -/
def baseGame : Game :=
  { maxPlayers := 8, currentPlayerIndex := 0, direction := 1, drawPile := [],
    discardPile := [], currentColor := .red, lastPlayedCard := none, playHistory := [],
    gameState := "playing", winnerId := none, players := [], selectedCards := [],
    stackingTimer := none, pendingDrawTotal := 0, pendingDrawType := none,
    stackedDiscard := [], scoringEnabled := false, scoreLimit := none, matchScores := [],
    playerTotalScores := [], eliminatedPlayers := [], currentMatchNumber := 1,
    finalWinnerId := none }

def mkSeatedPlayer (pid pname : String) (hand : List UnoCard) (pos : Nat) : Player :=
  { id := pid, name := pname, hand := hand, position := pos, isHost := pos = 0,
    seated := true, seatedPosition := some pos }

def blueSeven : UnoCard := { id := "b7", color := .blue, type := .number, value := some 7 }

def redFive : UnoCard := { id := "r5", color := .red, type := .number, value := some 5 }

def greenThree : UnoCard := { id := "g3", color := .green, type := .number, value := some 3 }

def redReverseCard : UnoCard := { id := "rr", color := .red, type := .reverse, value := none }

def redDraw2Card : UnoCard := { id := "rd2", color := .red, type := .draw2, value := none }

def blueDraw2Card : UnoCard := { id := "bd2", color := .blue, type := .draw2, value := none }

def wildFixture : UnoCard := { id := "w0", color := .wild, type := .wild, value := none }

/-- C1 failing input: blue 7 on top, current colour blue, no pending draw. -/
def g1ex : Game := { baseGame with discardPile := [blueSeven], currentColor := .blue }

/-- C5 failing input: a resolved draw episode (pending total 0, timer cleared) with
two seated players and the acting client `"a"` still holding a stale local timer. -/
def g5ex : Game :=
  { baseGame with
    players := [mkSeatedPlayer "a" "A" [redFive] 0, mkSeatedPlayer "b" "B" [blueSeven] 1],
    discardPile := [greenThree], currentColor := .green, drawPile := [blueDraw2Card] }

/-- C6 failing input: empty draw pile, two cards on the discard pile. -/
def g6ex : Game :=
  { baseGame with
    players := [mkSeatedPlayer "a" "A" [redFive] 0, mkSeatedPlayer "b" "B" [blueSeven] 1],
    discardPile := [greenThree, blueSeven], currentColor := .blue, drawPile := [] }

/-- C7 witness input: two seated players, `"a"` acting, direction `+1`. -/
def g7ex : Game :=
  { baseGame with
    players := [mkSeatedPlayer "a" "A" [redFive, redReverseCard] 0,
                mkSeatedPlayer "b" "B" [blueSeven] 1],
    discardPile := [greenThree], currentColor := .green }

/-- C9 failing input: player `"c"` was eliminated at 300 points in an earlier round and
still holds a stale hand worth 50 points when the next round ends. -/
def g9ex : Game :=
  { baseGame with
    players := [mkSeatedPlayer "a" "A" [redFive] 0, mkSeatedPlayer "b" "B" [blueSeven] 1,
                { id := "c", name := "C", hand := [wildFixture], position := 2,
                  isHost := false, seated := false, seatedPosition := none }],
    scoringEnabled := true, scoreLimit := some 300,
    playerTotalScores := [("c", 300)], eliminatedPlayers := ["c"] }

/-- C3/C4/C10 witness input: `"a"` to act holding two draw-2 cards and a number card,
with a stacked draw-2 pending against them and three cards on the draw pile. -/
def g3ex : Game :=
  { baseGame with
    players := [mkSeatedPlayer "a" "A" [redDraw2Card, blueDraw2Card, redFive] 0,
                mkSeatedPlayer "b" "B" [blueSeven] 1],
    discardPile := [greenThree], currentColor := .green,
    drawPile := [greenThree, blueSeven, wildFixture],
    pendingDrawTotal := 2, pendingDrawType := some .draw2, stackingTimer := some 1000 }

/-- C6 (amended) witness input: a pending draw of 4 against a draw pile holding only
one card — a shortfall with a nonempty pile. -/
def g6bex : Game :=
  { baseGame with
    players := [mkSeatedPlayer "a" "A" [redFive] 0, mkSeatedPlayer "b" "B" [blueSeven] 1],
    discardPile := [greenThree, blueSeven], currentColor := .blue,
    drawPile := [wildFixture],
    pendingDrawTotal := 4, pendingDrawType := some .draw2, stackingTimer := some 1000 }

/-- The sequential `deck.splice(0, 7)` dealing loop of `startNextMatch` and the
play-again handler: each listed player takes the next seven cards off the front; the
result pairs each player id with its dealt hand and returns the remaining deck. -/
def dealLoop : List Player → List UnoCard → List (String × List UnoCard) × List UnoCard
  | [], deck => ([], deck)
  | p :: rest, deck =>
    let r := dealLoop rest (deck.drop 7)
    ((p.id, deck.take 7) :: r.1, r.2)

/-- `startNextMatch`: unseat the eliminated players, deal seven fresh cards to every
remaining seated player from an already-shuffled deck, pop the starting discard off
the back, and reset the round state for the next match. -/
def startNextMatchOp (g : Game) (deck : List UnoCard) : Game :=
  if g.scoringEnabled = false then g
  else
    let unseated := g.players.map fun p =>
      if p.id ∈ g.eliminatedPlayers then { p with seated := false, seatedPosition := none }
      else p
    let remainingSeatedPlayers := g.players.filter fun p =>
      !decide (p.id ∈ g.eliminatedPlayers) && p.seated
    let dealt := dealLoop remainingSeatedPlayers deck
    let players2 := dealt.1.foldl (fun ps e =>
      ps.map fun p => if p.id = e.1 then { p with hand := e.2 } else p) unseated
    let top := dealt.2.getLast?
    { g with currentMatchNumber := g.currentMatchNumber + 1,
             currentPlayerIndex := 0,
             direction := 1,
             drawPile := dealt.2.dropLast,
             discardPile := top.toList,
             currentColor := (match top with
               | some c => if c.color = .wild then .red else c.color
               | none => .red),
             gameState := "playing",
             winnerId := none,
             selectedCards := [],
             pendingDrawTotal := 0,
             pendingDrawType := none,
             stackingTimer := none,
             players := players2,
             playHistory := [("System",
               "Match " ++ toString (g.currentMatchNumber + 1) ++ " started")] }

/-- The play-again handler (`newGame` inside the game-end overlay): deal seven fresh
cards to every player from an already-shuffled deck, pop the starting discard off the
back, and reset the round state into the seating phase. -/
def newGameOp (g : Game) (deck : List UnoCard) : Game :=
  let dealt := dealLoop g.players deck
  let players2 := dealt.1.foldl (fun ps e =>
    ps.map fun p => if p.id = e.1 then { p with hand := e.2 } else p) g.players
  let top := dealt.2.getLast?
  { g with drawPile := dealt.2.dropLast,
           discardPile := top.toList,
           stackedDiscard := [],
           currentColor := (match top with
             | some c => if c.color = .wild then .red else c.color
             | none => .red),
           currentPlayerIndex := 0,
           direction := 1,
           pendingDrawTotal := 0,
           pendingDrawType := none,
           stackingTimer := none,
           playHistory := [],
           lastPlayedCard := none,
           selectedCards := [],
           winnerId := none,
           gameState := "seating",
           players := players2 }

/-- The last card of the generated (unshuffled) double deck: a wild draw 4. -/
def wild4LastCard : UnoCard :=
  { id := "wild4-3-deck1", color := .wild, type := .wild4, value := none }

/-- The acting player of the `g3ex` fixture. -/
def playerA3 : Player := mkSeatedPlayer "a" "A" [redDraw2Card, blueDraw2Card, redFive] 0

/-- C4 witness input with no pending draw. -/
def g4ex : Game :=
  { baseGame with
    players := [mkSeatedPlayer "a" "A" [redFive] 0, mkSeatedPlayer "b" "B" [blueSeven] 1],
    discardPile := [greenThree], currentColor := .green,
    drawPile := [greenThree, blueSeven] }

/-- C1: the claim "otherwise legal iff wild colour, or colour match, or equal-number
number cards, or same non-number non-wild kind" fails on the code: `canPlayCard`'s
kind-match branch does not exclude `number`, so a red 5 is accepted on a blue 7 with
current colour blue although every condition enumerated by the claim is false. -/
theorem canPlayCard_number_kind_match_bug :
    canPlayCard g1ex [] redFive = true ∧
    g1ex.pendingDrawType = none ∧ g1ex.pendingDrawTotal = 0 ∧
    redFive.color ≠ CardColor.wild ∧
    redFive.color ≠ g1ex.currentColor ∧
    topCard g1ex = some blueSeven ∧
    redFive.type = CardType.number ∧ blueSeven.type = CardType.number ∧
    redFive.value ≠ blueSeven.value := by
  decide

set_option maxRecDepth 100000 in
/-- C2: the closed card-count invariant fails on the code: creating a game from the
generated 216-card double deck keeps 216 cards in circulation, but a second player
joining replaces the draw pile with `draw_pile.slice(0, -7)` plus a fresh deck minus
the joiner's seven dealt cards, leaving 425 cards in circulation. -/
theorem joinGame_breaks_card_count :
    generateDeck.length = 216 ∧
    cardCount (createGameOp generateDeck "host" "Host" false 300) = 216 ∧
    cardCount (joinGameOp (createGameOp generateDeck "host" "Host" false 300)
      generateDeck "p2" "P2") = 425 := by
  refine ⟨?_, ?_, ?_⟩ <;> rfl

/-- C5: the deadline-expiry handler is not idempotent: on a state whose pending draw
is already resolved (`pendingDrawTotal = 0`, timer cleared) a second invocation still
advances `currentPlayerIndex` from 0 to 1 and appends a history entry, instead of
being the silent no-op the claim requires. -/
theorem handleDrawTimeout_refire_not_noop :
    g5ex.pendingDrawTotal = 0 ∧ g5ex.stackingTimer = none ∧
    g5ex.currentPlayerIndex = 0 ∧
    (handleDrawTimeoutOp g5ex "a").currentPlayerIndex = 1 ∧
    (handleDrawTimeoutOp g5ex "a").playHistory =
      [("A", "drew +0 cards (timer expired)")] := by
  decide

/-- C6 counterexample: with an empty draw pile and two cards on the discard pile, a
voluntary draw does not reshuffle the discard pile and does not continue the draw —
the operation aborts and the whole round state is unchanged, so the requested card is
omitted (the claim instead demands a reshuffle that retains only the discard top). -/
theorem drawCards_empty_pile_no_reshuffle :
    g6ex.drawPile = [] ∧ g6ex.discardPile.length = 2 ∧
    drawCardsOp g6ex "a" = g6ex := by
  decide

/-- C8 counterexample: starting a round from the generated deck itself (a possible
shuffle) puts a wild4 on top of the initial discard pile — the code pops exactly one
card with no retry, so the starting discard can be a wild4 (colour then set to red). -/
theorem createGame_can_start_with_wild4 :
    ((createGameOp generateDeck "h" "H" false 300).discardPile.map fun c => c.type) =
      [CardType.wild4] ∧
    (createGameOp generateDeck "h" "H" false 300).currentColor = CardColor.red := by
  refine ⟨?_, ?_⟩ <;> rfl

/-- C9 counterexample: player `"c"`, already eliminated with exactly 300 points, still
holds a 50-point hand when the next round ends; `handleMatchEnd` re-scores that stale
hand, raising the eliminated player's cumulative total from 300 to 350 — the claim
says already-eliminated players accrue no further score. -/
theorem eliminated_player_accrues_score :
    "c" ∈ g9ex.eliminatedPlayers ∧
    getScore g9ex.playerTotalScores "c" = 300 ∧
    getScore (handleMatchEndOp g9ex "a").playerTotalScores "c" = 350 ∧
    (handleMatchEndOp g9ex "a").eliminatedPlayers = ["c"] := by
  decide

theorem foldl_add_init (f : UnoCard → Nat) (l : List UnoCard) (a : Nat) :
    l.foldl (fun s c => s + f c) a = a + l.foldl (fun s c => s + f c) 0 := by
  induction l generalizing a with
  | nil => simp
  | cons c cs ih =>
    simp only [List.foldl_cons]
    rw [ih (a + f c), ih (0 + f c)]
    omega

theorem drawAmount_filter (cards : List UnoCard) :
    (cards.filter isDrawCard).foldl
        (fun sum card => sum + (if card.type = CardType.draw2 then 2 else 4)) 0 =
      2 * (cards.filter fun c => decide (c.type = CardType.draw2)).length +
        4 * (cards.filter fun c => decide (c.type = CardType.wild4)).length := by
  induction cards with
  | nil => simp
  | cons c cs ih =>
    by_cases h2 : c.type = CardType.draw2
    · simp [List.filter_cons, isDrawCard, h2]
      rw [foldl_add_init, ih]
      omega
    · by_cases h4 : c.type = CardType.wild4
      · simp [List.filter_cons, isDrawCard, h2, h4]
        rw [foldl_add_init, ih]
        omega
      · simp [List.filter_cons, isDrawCard, h2, h4, ih]

theorem head?_mem_self {l : List α} {c : α} (h : l.head? = some c) : c ∈ l := by
  cases l with
  | nil => simp at h
  | cons x xs => simp at h; simp [h]

/-- C3: an accepted play containing at least one draw-effect card adds 2 per draw2 and
4 per wild4 to `pendingDrawTotal`, sets `pendingDrawType` to the kind of the first
draw-effect card in the play, and arms the response deadline at now + 6000 ms. -/
theorem executeCardPlay_draw_stack (g : Game) (pid : String) (cards : List UnoCard)
    (chosenColor : Option CardColor) (now : Nat) (actor : Player)
    (hFind : g.players.find? (fun p => decide (p.id = pid)) = some actor)
    (hDraw : cards.any isDrawCard = true) :
    (executeCardPlayOp g pid cards chosenColor now).pendingDrawTotal =
      g.pendingDrawTotal +
        2 * (cards.filter fun c => decide (c.type = CardType.draw2)).length +
        4 * (cards.filter fun c => decide (c.type = CardType.wild4)).length ∧
    (∀ c, (cards.filter isDrawCard).head? = some c →
      (executeCardPlayOp g pid cards chosenColor now).pendingDrawType = some c.type) ∧
    (executeCardPlayOp g pid cards chosenColor now).stackingTimer = some (now + 6000) := by
  unfold executeCardPlayOp
  rw [hFind]
  simp only [hDraw, if_true]
  refine ⟨?_, ?_, ?_⟩
  · simp [drawAmount_filter]
    omega
  · intro c hc
    have hmem : c ∈ cards.filter isDrawCard := head?_mem_self hc
    have htype : c.type = CardType.draw2 ∨ c.type = CardType.wild4 := by
      have := List.mem_filter.mp hmem
      simpa [isDrawCard] using this.2
    simp only [hc]
    rcases htype with h | h <;> simp [h]
  · simp

/-- C3 witness: at the `g3ex` fixture, stacking two draw-2 cards onto a pending total
of 2 yields `pendingDrawTotal = 6`, type `draw2`, and a deadline at now + 6000 ms. -/
theorem executeCardPlay_draw_stack_witness :
    (g3ex.players.find? (fun p => decide (p.id = "a")) =
      some (mkSeatedPlayer "a" "A" [redDraw2Card, blueDraw2Card, redFive] 0)) ∧
    ([redDraw2Card, blueDraw2Card].any isDrawCard = true) ∧
    (executeCardPlayOp g3ex "a" [redDraw2Card, blueDraw2Card] none 0).pendingDrawTotal =
      g3ex.pendingDrawTotal +
        2 * ([redDraw2Card, blueDraw2Card].filter fun c =>
          decide (c.type = CardType.draw2)).length +
        4 * ([redDraw2Card, blueDraw2Card].filter fun c =>
          decide (c.type = CardType.wild4)).length ∧
    (executeCardPlayOp g3ex "a" [redDraw2Card, blueDraw2Card] none 0).pendingDrawTotal = 6 ∧
    (executeCardPlayOp g3ex "a" [redDraw2Card, blueDraw2Card] none 0).pendingDrawType =
      some CardType.draw2 ∧
    (executeCardPlayOp g3ex "a" [redDraw2Card, blueDraw2Card] none 0).stackingTimer =
      some 6000 :=
  ⟨by decide, by decide,
    (executeCardPlay_draw_stack g3ex "a" [redDraw2Card, blueDraw2Card] none 0
      (mkSeatedPlayer "a" "A" [redDraw2Card, blueDraw2Card, redFive] 0)
      (by decide) (by decide)).1,
    by decide, by decide, by decide⟩

theorem drawLoopStrict_spec (n : Nat) :
    ∀ hand pile : List UnoCard, n ≤ pile.length →
      ∃ hp, drawLoopStrict n hand pile = some hp ∧
        hp.1.length = hand.length + n ∧ hp.2.length = pile.length - n := by
  induction n with
  | zero => intro hand pile h; exact ⟨(hand, pile), rfl, by simp, by simp⟩
  | succ m ih =>
    intro hand pile h
    have hne : pile ≠ [] := by
      intro he; rw [he] at h; simp at h
    obtain ⟨c, hc⟩ : ∃ c, pile.getLast? = some c := by
      cases hg : pile.getLast? with
      | none => exact absurd (List.getLast?_eq_none_iff.mp hg) hne
      | some c => exact ⟨c, rfl⟩
    have hlen : m ≤ pile.dropLast.length := by
      simp [List.length_dropLast]; omega
    obtain ⟨hp, heq, h1, h2⟩ := ih (c :: hand) pile.dropLast hlen
    refine ⟨hp, ?_, ?_, ?_⟩
    · simp [drawLoopStrict, hc, heq]
    · simp at h1; omega
    · simp [List.length_dropLast] at h2; omega

theorem find?_hand_update (l : List Player) (pid : String) (m : Player)
    (newHand : List UnoCard)
    (h : l.find? (fun p => decide (p.id = pid)) = some m) :
    (l.map fun p => if p.id = pid then { p with hand := newHand } else p).find?
      (fun p => decide (p.id = pid)) = some { m with hand := newHand } := by
  induction l with
  | nil => simp at h
  | cons x xs ih =>
    by_cases hx : x.id = pid
    · have hm : x = m := by
        simp [List.find?_cons, hx] at h
        exact h
      subst hm
      simp [List.find?_cons, hx]
    · simp only [List.find?_cons_of_neg, List.map_cons] at h ⊢
      rw [List.find?_cons_of_neg] at h
      · simp only [if_neg hx]
        rw [List.find?_cons_of_neg]
        · exact ih h
        · simp [hx]
      · simp [hx]

/-- C4: a voluntary draw by the current player: with a pending draw stack the player
receives exactly `pendingDrawTotal` cards, the pending state and timer clear, and the
turn advances one seat in the current direction; with no pending draw the player
receives exactly one card and `currentPlayerIndex` (and the pending state) is
unchanged, so the turn is not forfeited. -/
theorem drawCards_spec (g : Game) (pid : String) (myPlayer : Player)
    (hFind : g.players.find? (fun p => decide (p.id = pid)) = some myPlayer)
    (hCur : jsIndex g.players g.currentPlayerIndex = some myPlayer)
    (hPile : (if 0 < g.pendingDrawTotal then g.pendingDrawTotal else 1) ≤
      g.drawPile.length) :
    (0 < g.pendingDrawTotal →
      (drawCardsOp g pid).pendingDrawTotal = 0 ∧
      (drawCardsOp g pid).pendingDrawType = none ∧
      (drawCardsOp g pid).stackingTimer = none ∧
      (drawCardsOp g pid).currentPlayerIndex = forcedNextPlayerIndex g ∧
      (handOf (drawCardsOp g pid) pid).length =
        (handOf g pid).length + g.pendingDrawTotal) ∧
    (g.pendingDrawTotal = 0 →
      (drawCardsOp g pid).currentPlayerIndex = g.currentPlayerIndex ∧
      (drawCardsOp g pid).pendingDrawTotal = g.pendingDrawTotal ∧
      (drawCardsOp g pid).pendingDrawType = g.pendingDrawType ∧
      (drawCardsOp g pid).stackingTimer = g.stackingTimer ∧
      (handOf (drawCardsOp g pid) pid).length = (handOf g pid).length + 1) := by
  have hid : myPlayer.id = pid := by
    have := List.find?_some hFind
    exact of_decide_eq_true this
  obtain ⟨hp, heq, h1, h2⟩ :=
    drawLoopStrict_spec (if 0 < g.pendingDrawTotal then g.pendingDrawTotal else 1)
      myPlayer.hand g.drawPile hPile
  have hop : drawCardsOp g pid =
      { g with drawPile := hp.2,
               currentPlayerIndex := if 0 < g.pendingDrawTotal then forcedNextPlayerIndex g
                 else g.currentPlayerIndex,
               currentColor := if 0 < g.pendingDrawTotal then forcedDrawColor g
                 else g.currentColor,
               pendingDrawTotal := if 0 < g.pendingDrawTotal then 0 else g.pendingDrawTotal,
               pendingDrawType := if 0 < g.pendingDrawTotal then none else g.pendingDrawType,
               stackingTimer := if 0 < g.pendingDrawTotal then none else g.stackingTimer,
               playHistory := g.playHistory ++ [(myPlayer.name,
                 if 1 < (if 0 < g.pendingDrawTotal then g.pendingDrawTotal else 1) then
                   "drew +" ++ toString (if 0 < g.pendingDrawTotal then g.pendingDrawTotal
                     else 1) ++ " cards"
                 else "drew 1 card")],
               players := g.players.map fun p =>
                 if p.id = pid then { p with hand := hp.1 } else p } := by
    unfold drawCardsOp
    rw [hFind, hCur]
    dsimp only
    rw [if_neg (by simp [hid]), heq]
  have hhand : handOf (drawCardsOp g pid) pid = hp.1 := by
    rw [hop]
    unfold handOf
    rw [find?_hand_update g.players pid myPlayer hp.1 hFind]
  have hhand0 : handOf g pid = myPlayer.hand := by
    unfold handOf; rw [hFind]
  constructor
  · intro hpos
    refine ⟨?_, ?_, ?_, ?_, ?_⟩
    · rw [hop]; simp [hpos]
    · rw [hop]; simp [hpos]
    · rw [hop]; simp [hpos]
    · rw [hop]; simp [hpos]
    · rw [hhand, hhand0]
      simp [hpos] at h1
      omega
  · intro hzero
    have hns : ¬ 0 < g.pendingDrawTotal := by omega
    refine ⟨?_, ?_, ?_, ?_, ?_⟩
    · rw [hop]; simp [hns]
    · rw [hop]; simp [hns]
    · rw [hop]; simp [hns]
    · rw [hop]; simp [hns]
    · rw [hhand, hhand0]
      simp [hns] at h1
      omega

/-- C4 witness: at `g3ex` (pending total 2, three cards on the pile) the forced
voluntary draw clears the pending state, advances the seat, and adds two cards. -/
theorem drawCards_spec_witness :
    (g3ex.players.find? (fun p => decide (p.id = "a")) = some playerA3) ∧
    jsIndex g3ex.players g3ex.currentPlayerIndex = some playerA3 ∧
    ((if 0 < g3ex.pendingDrawTotal then g3ex.pendingDrawTotal else 1) ≤
      g3ex.drawPile.length) ∧
    0 < g3ex.pendingDrawTotal ∧
    ((drawCardsOp g3ex "a").pendingDrawTotal = 0 ∧
     (drawCardsOp g3ex "a").pendingDrawType = none ∧
     (drawCardsOp g3ex "a").stackingTimer = none ∧
     (drawCardsOp g3ex "a").currentPlayerIndex = forcedNextPlayerIndex g3ex ∧
     (handOf (drawCardsOp g3ex "a") "a").length =
       (handOf g3ex "a").length + g3ex.pendingDrawTotal) :=
  ⟨by decide, by decide, by decide, by decide,
   (drawCards_spec g3ex "a" playerA3 (by decide) (by decide) (by decide)).1 (by decide)⟩

theorem drawLoopSkip_nil (n : Nat) (hand : List UnoCard) :
    drawLoopSkip n hand [] = (hand, []) := by
  induction n with
  | zero => rfl
  | succ m ih => simp [drawLoopSkip, ih]

theorem drawLoopStrict_short (n : Nat) :
    ∀ hand pile : List UnoCard, pile.length < n → drawLoopStrict n hand pile = none := by
  induction n with
  | zero => intro hand pile h; omega
  | succ m ih =>
    intro hand pile h
    cases hg : pile.getLast? with
    | none => simp [drawLoopStrict, hg]
    | some c =>
      have hne : pile ≠ [] := by intro he; rw [he] at hg; simp at hg
      have hpos : 0 < pile.length := List.length_pos.mpr hne
      have hlt : pile.dropLast.length < m := by
        simp [List.length_dropLast]; omega
      simp [drawLoopStrict, hg, ih (c :: hand) pile.dropLast hlt]

theorem drawLoopSkip_exhaust (n : Nat) :
    ∀ hand pile : List UnoCard, pile.length ≤ n →
      (drawLoopSkip n hand pile).1.length = hand.length + pile.length ∧
      (drawLoopSkip n hand pile).2 = [] := by
  induction n with
  | zero =>
    intro hand pile h
    have hnil : pile = [] := List.length_eq_zero.mp (by omega)
    subst hnil
    simp [drawLoopSkip]
  | succ m ih =>
    intro hand pile h
    cases hg : pile.getLast? with
    | none =>
      have hnil : pile = [] := List.getLast?_eq_none_iff.mp hg
      subst hnil
      simp [drawLoopSkip, drawLoopSkip_nil]
    | some c =>
      have hne : pile ≠ [] := by intro he; rw [he] at hg; simp at hg
      have hpos : 0 < pile.length := List.length_pos.mpr hne
      have hlen : pile.dropLast.length ≤ m := by
        simp [List.length_dropLast]; omega
      have hstep : drawLoopSkip (m + 1) hand pile =
          drawLoopSkip m (c :: hand) pile.dropLast := by
        simp [drawLoopSkip, hg]
      obtain ⟨h1, h2⟩ := ih (c :: hand) pile.dropLast hlen
      rw [hstep]
      refine ⟨?_, h2⟩
      rw [h1]
      simp [List.length_dropLast]
      omega

/-- C6 (amended): when the draw pile cannot supply the requested n cards there is
never a reshuffle of the discard pile: a voluntary draw aborts leaving the whole round
state unchanged even when the pile still holds some cards, and the deadline handler
grants only the cards actually available — the pile is drained to empty, the current
player's hand grows by exactly the old pile size, the discard pile is untouched, and
every other player is unchanged in place. -/
theorem shortfall_no_reshuffle (g : Game) (pid : String) (cur : Player)
    (hFind : g.players.find? (fun p => decide (p.id = pid)) = some cur)
    (hCur : jsIndex g.players g.currentPlayerIndex = some cur)
    (hShort : g.drawPile.length <
      (if 0 < g.pendingDrawTotal then g.pendingDrawTotal else 1)) :
    drawCardsOp g pid = g ∧
    (handleDrawTimeoutOp g pid).discardPile = g.discardPile ∧
    (handleDrawTimeoutOp g pid).drawPile = [] ∧
    (handOf (handleDrawTimeoutOp g pid) pid).length =
      (handOf g pid).length + g.drawPile.length ∧
    (∀ (i : Nat) (p : Player), g.players[i]? = some p → p.id ≠ pid →
      (handleDrawTimeoutOp g pid).players[i]? = some p) := by
  have hid : cur.id = pid := by
    have := List.find?_some hFind
    exact of_decide_eq_true this
  have hple : g.drawPile.length ≤ g.pendingDrawTotal := by
    by_cases h0 : 0 < g.pendingDrawTotal
    · rw [if_pos h0] at hShort; omega
    · rw [if_neg h0] at hShort; omega
  obtain ⟨e1, e2⟩ := drawLoopSkip_exhaust g.pendingDrawTotal cur.hand g.drawPile hple
  have hop : handleDrawTimeoutOp g pid =
      { g with players := g.players.map (fun p => if p.id = cur.id then
                 { p with hand := (drawLoopSkip g.pendingDrawTotal cur.hand g.drawPile).1 }
               else p),
               currentPlayerIndex := forcedNextPlayerIndex g,
               currentColor := forcedDrawColor g,
               pendingDrawTotal := 0,
               pendingDrawType := none,
               stackingTimer := none,
               drawPile := (drawLoopSkip g.pendingDrawTotal cur.hand g.drawPile).2,
               playHistory := g.playHistory ++ [(cur.name,
                 "drew +" ++ toString g.pendingDrawTotal ++ " cards (timer expired)")] } := by
    unfold handleDrawTimeoutOp
    rw [hCur]
    dsimp only
    rw [if_neg (by simp [hid])]
  have hh0 : handOf g pid = cur.hand := by
    unfold handOf; rw [hFind]
  refine ⟨?_, ?_, ?_, ?_, ?_⟩
  · unfold drawCardsOp
    rw [hFind, hCur]
    dsimp only
    rw [if_neg (by simp [hid]), drawLoopStrict_short _ cur.hand g.drawPile hShort]
  · rw [hop]
  · rw [hop]
    exact e2
  · rw [hop, hh0]
    unfold handOf
    simp only [hid]
    rw [find?_hand_update g.players pid cur
      (drawLoopSkip g.pendingDrawTotal cur.hand g.drawPile).1 hFind]
    simpa using e1
  · intro i p hpi hne
    have hnec : p.id ≠ cur.id := by rw [hid]; exact hne
    rw [hop]
    dsimp only
    rw [List.getElem?_map, hpi]
    simp [if_neg hnec]

/-- C6 witness: at `g6bex` (pending total 4, a single card on the pile) the voluntary
draw aborts although the pile is nonempty, and the timeout grants exactly that one
available card. -/
theorem shortfall_no_reshuffle_witness :
    (g6bex.players.find? (fun p => decide (p.id = "a")) =
      some (mkSeatedPlayer "a" "A" [redFive] 0)) ∧
    jsIndex g6bex.players g6bex.currentPlayerIndex =
      some (mkSeatedPlayer "a" "A" [redFive] 0) ∧
    (g6bex.drawPile.length <
      (if 0 < g6bex.pendingDrawTotal then g6bex.pendingDrawTotal else 1)) ∧
    g6bex.drawPile ≠ [] ∧
    drawCardsOp g6bex "a" = g6bex ∧
    (handleDrawTimeoutOp g6bex "a").drawPile = [] ∧
    (handOf (handleDrawTimeoutOp g6bex "a") "a").length =
      (handOf g6bex "a").length + g6bex.drawPile.length :=
  ⟨by decide, by decide, by decide, by decide,
   (shortfall_no_reshuffle g6bex "a" (mkSeatedPlayer "a" "A" [redFive] 0)
     (by decide) (by decide) (by decide)).1,
   (shortfall_no_reshuffle g6bex "a" (mkSeatedPlayer "a" "A" [redFive] 0)
     (by decide) (by decide) (by decide)).2.2.1,
   (shortfall_no_reshuffle g6bex "a" (mkSeatedPlayer "a" "A" [redFive] 0)
     (by decide) (by decide) (by decide)).2.2.2.1⟩

/-- C7: with exactly two seated players, a single reverse card flips the direction,
records the opponent as skipped, and lands the turn back on the acting player. -/
theorem reverse_two_player_spec (a b : Player) (c : UnoCard) (g : Game)
    (hps : g.players = [a, b]) (ha : a.seated = true) (hb : b.seated = true)
    (hpa : a.seatedPosition = some 0) (hpb : b.seatedPosition = some 1)
    (hid : a.id ≠ b.id)
    (hdir : g.direction = 1 ∨ g.direction = -1)
    (hcur : g.currentPlayerIndex = 0 ∨ g.currentPlayerIndex = 1)
    (hc : c.type = CardType.reverse) :
    (calculateCardEffects g [c]).newDirection = -g.direction ∧
    (calculateCardEffects g [c]).nextPlayerIndex = g.currentPlayerIndex ∧
    (calculateCardEffects g [c]).skippedPlayers =
      [if g.currentPlayerIndex = 0 then b.name else a.name] := by
  have hsp : getSeatedPlayers [a, b] = [a, b] := by
    simp [getSeatedPlayers, List.filter_cons, ha, hb, insertSeated, posKey, hpa, hpb]
  rcases hdir with hd | hd <;> rcases hcur with hcu | hcu <;>
    simp [calculateCardEffects, hsp, getCurrentSeatedPlayerIndex, jsIndex, hps, hcu, hd,
      jsFindIndex, findIdxP, jsMod, skipLoop, hc, hid, Ne.symm hid]

/-- C7 witness: at `g7ex` player A plays a reverse; direction flips, B is skipped, and
A acts again. -/
theorem reverse_two_player_witness :
    (g7ex.players = [mkSeatedPlayer "a" "A" [redFive, redReverseCard] 0,
      mkSeatedPlayer "b" "B" [blueSeven] 1]) ∧
    redReverseCard.type = CardType.reverse ∧
    (calculateCardEffects g7ex [redReverseCard]).newDirection = -g7ex.direction ∧
    (calculateCardEffects g7ex [redReverseCard]).nextPlayerIndex =
      g7ex.currentPlayerIndex ∧
    (calculateCardEffects g7ex [redReverseCard]).skippedPlayers =
      [if g7ex.currentPlayerIndex = 0 then (mkSeatedPlayer "b" "B" [blueSeven] 1).name
       else (mkSeatedPlayer "a" "A" [redFive, redReverseCard] 0).name] :=
  ⟨rfl, rfl,
   (reverse_two_player_spec _ _ redReverseCard g7ex rfl (by decide) (by decide) (by decide)
     (by decide) (by decide) (Or.inl rfl) (Or.inl rfl) rfl).1,
   (reverse_two_player_spec _ _ redReverseCard g7ex rfl (by decide) (by decide) (by decide)
     (by decide) (by decide) (Or.inl rfl) (Or.inl rfl) rfl).2.1,
   (reverse_two_player_spec _ _ redReverseCard g7ex rfl (by decide) (by decide) (by decide)
     (by decide) (by decide) (Or.inl rfl) (Or.inl rfl) rfl).2.2⟩

/-- The `createGame` start path: the initial discard is the single card popped off the
deck remaining after the host's seven-card deal, whatever its kind, and every deck
card is accounted for. -/
theorem createGame_initial_discard (deck : List UnoCard) (hostId hostName : String)
    (sEn : Bool) (sLim : Nat) (c : UnoCard)
    (hlen : 8 ≤ deck.length)
    (hc : (deck.drop 7).getLast? = some c) :
    (createGameOp deck hostId hostName sEn sLim).discardPile = [c] ∧
    (createGameOp deck hostId hostName sEn sLim).currentColor =
      (if c.color = CardColor.wild then CardColor.red else c.color) ∧
    cardCount (createGameOp deck hostId hostName sEn sLim) = deck.length := by
  unfold createGameOp cardCount
  dsimp only
  rw [hc]
  refine ⟨rfl, rfl, ?_⟩
  simp only [Option.toList_some, List.length_dropLast, List.length_drop, List.length_take,
    List.length_cons, List.length_nil, List.map_cons, List.map_nil, List.sum_cons,
    List.sum_nil]
  omega

theorem getScore_cons (e : String × Nat) (l : List (String × Nat)) (k : String) :
    getScore (e :: l) k = if e.1 = k then e.2 else getScore l k := by
  by_cases he : e.1 = k
  · simp [getScore, List.find?_cons, he]
  · simp [getScore, List.find?_cons, he]

theorem getScore_set_self (m : List (String × Nat)) (k : String) (v : Nat) :
    getScore (setScore m k v) k = v := by
  induction m with
  | nil => simp [setScore, getScore_cons, getScore]
  | cons e rest ih =>
    by_cases he : e.1 = k
    · simp [setScore, he, getScore_cons]
    · simp [setScore, he, getScore_cons, ih]

theorem getScore_set_other (m : List (String × Nat)) (k x : String) (v : Nat)
    (hne : x ≠ k) :
    getScore (setScore m k v) x = getScore m x := by
  induction m with
  | nil => simp [setScore, getScore_cons, getScore, Ne.symm hne]
  | cons e rest ih =>
    by_cases he : e.1 = k
    · subst he
      simp [setScore, getScore_cons, Ne.symm hne]
    · simp [setScore, he, getScore_cons, ih]

theorem matchEnd_fold_inv (g : Game) (winnerId : String) (ps : List Player) :
    ∀ (ms : List Nat) (totals : List (String × Nat)) (elim : List String),
      elim.Nodup → (ps.map fun p => p.id).Nodup →
      ((ps.foldl (matchEndStep g winnerId) (ms, totals, elim)).2.2.Nodup ∧
       (∀ x ∈ elim, x ∈ (ps.foldl (matchEndStep g winnerId) (ms, totals, elim)).2.2) ∧
       (∀ x, x ∉ ps.map (fun p => p.id) →
         getScore (ps.foldl (matchEndStep g winnerId) (ms, totals, elim)).2.1 x =
           getScore totals x ∧
         (x ∈ (ps.foldl (matchEndStep g winnerId) (ms, totals, elim)).2.2 ↔ x ∈ elim)) ∧
       (∀ x, x ∈ (ps.foldl (matchEndStep g winnerId) (ms, totals, elim)).2.2 ↔
         x ∈ elim ∨ (x ∈ ps.map (fun p => p.id) ∧
           g.scoreLimit.getD 300 ≤
             getScore (ps.foldl (matchEndStep g winnerId) (ms, totals, elim)).2.1 x))) := by
  induction ps with
  | nil =>
    intro ms totals elim hE hP
    refine ⟨hE, fun x hx => hx, fun x hx => ⟨rfl, Iff.rfl⟩, fun x => ?_⟩
    simp
  | cons p rest ih =>
    intro ms totals elim hE hP
    have hpn1 : p.id ∉ rest.map (fun p => p.id) := by
      simp only [List.map_cons, List.nodup_cons] at hP
      exact hP.1
    have hpn2 : (rest.map fun p => p.id).Nodup := by
      simp only [List.map_cons, List.nodup_cons] at hP
      exact hP.2
    set limit := g.scoreLimit.getD 300 with hlim
    set score := matchScoreOf g winnerId p with hsc
    set T := getScore totals p.id + score with hT
    set totals1 := setScore totals p.id T with htot1
    set elim1 := (if limit ≤ T ∧ ¬ p.id ∈ elim then elim ++ [p.id] else elim) with helim1
    have hstep : (p :: rest).foldl (matchEndStep g winnerId) (ms, totals, elim) =
        rest.foldl (matchEndStep g winnerId) (ms ++ [score], totals1, elim1) := by
      simp only [List.foldl_cons]
      rfl
    have hE1 : elim1.Nodup := by
      rw [helim1]
      split
      · rename_i hg
        simp [List.nodup_append, hE, hg.2]
      · exact hE
    have hmem1 : ∀ x, x ∈ elim1 ↔ x ∈ elim ∨ (x = p.id ∧ limit ≤ T) := by
      intro x
      rw [helim1]
      by_cases hg : limit ≤ T ∧ ¬ p.id ∈ elim
      · rw [if_pos hg]
        simp only [List.mem_append, List.mem_singleton]
        constructor
        · rintro (h | h)
          · exact Or.inl h
          · exact Or.inr ⟨h, hg.1⟩
        · rintro (h | h)
          · exact Or.inl h
          · exact Or.inr h.1
      · rw [if_neg hg]
        constructor
        · exact Or.inl
        · rintro (h | ⟨hx, hle⟩)
          · exact h
          · have hpin : p.id ∈ elim := by
              by_contra hns
              exact hg ⟨hle, hns⟩
            rw [hx]
            exact hpin
    obtain ⟨ih1, ih2, ih3, ih4⟩ := ih (ms ++ [score]) totals1 elim1 hE1 hpn2
    rw [hstep]
    refine ⟨ih1, ?_, ?_, ?_⟩
    · intro x hx
      exact ih2 x ((hmem1 x).mpr (Or.inl hx))
    · intro x hx
      have hxne : x ≠ p.id := by
        simp only [List.map_cons, List.mem_cons] at hx
        exact fun h => hx (Or.inl h)
      have hxrest : x ∉ rest.map (fun p => p.id) := by
        simp only [List.map_cons, List.mem_cons] at hx
        exact fun h => hx (Or.inr h)
      obtain ⟨e1, e2⟩ := ih3 x hxrest
      refine ⟨?_, ?_⟩
      · rw [e1, htot1, getScore_set_other totals p.id x T hxne]
      · rw [e2, hmem1 x]
        constructor
        · rintro (h | ⟨hxp, _⟩)
          · exact h
          · exact absurd hxp hxne
        · exact Or.inl
    · intro x
      by_cases hxp : x = p.id
      · have hsval : getScore (rest.foldl (matchEndStep g winnerId)
            (ms ++ [score], totals1, elim1)).2.1 x = T := by
          rw [hxp, (ih3 p.id hpn1).1, htot1, getScore_set_self]
        have hxrest : x ∉ rest.map (fun p => p.id) := by
          rw [hxp]
          exact hpn1
        rw [ih4 x, hmem1 x, hsval]
        simp only [List.map_cons, List.mem_cons]
        constructor
        · rintro ((h | ⟨hxid, hle⟩) | ⟨hmem, hle⟩)
          · exact Or.inl h
          · exact Or.inr ⟨Or.inl hxid, hle⟩
          · exact absurd hmem hxrest
        · rintro (h | ⟨_, hle⟩)
          · exact Or.inl (Or.inl h)
          · exact Or.inl (Or.inr ⟨hxp, hle⟩)
      · rw [ih4 x, hmem1 x]
        simp only [List.map_cons, List.mem_cons]
        constructor
        · rintro ((h | ⟨hxid, _⟩) | ⟨hmem, hle⟩)
          · exact Or.inl h
          · exact absurd hxid hxp
          · exact Or.inr ⟨Or.inr hmem, hle⟩
        · rintro (h | ⟨hor, hle⟩)
          · exact Or.inl (Or.inl h)
          · rcases hor with h | h
            · exact absurd h hxp
            · exact Or.inr ⟨h, hle⟩

/-- C9 (amended): at round end in scoring mode the eliminated set stays duplicate-free
(each player appears at most once, ever), eliminations persist, a player id is in the
new set exactly when it already was or when that player's new cumulative total reaches
the score limit, and `finalWinnerId` is set iff exactly one non-eliminated player
remains (and then names such a player); however, already-eliminated players may still
accrue score from the stale hands they retain in later rounds. -/
theorem handleMatchEnd_amended (g : Game) (winnerId : String)
    (hS : g.scoringEnabled = true)
    (hE : g.eliminatedPlayers.Nodup)
    (hP : (g.players.map fun p => p.id).Nodup) :
    (handleMatchEndOp g winnerId).eliminatedPlayers.Nodup ∧
    (∀ x ∈ g.eliminatedPlayers, x ∈ (handleMatchEndOp g winnerId).eliminatedPlayers) ∧
    (∀ x, x ∈ (handleMatchEndOp g winnerId).eliminatedPlayers ↔
      x ∈ g.eliminatedPlayers ∨ (x ∈ g.players.map (fun p => p.id) ∧
        g.scoreLimit.getD 300 ≤
          getScore (handleMatchEndOp g winnerId).playerTotalScores x)) ∧
    ((handleMatchEndOp g winnerId).finalWinnerId.isSome ↔
      (g.players.filter fun p =>
        decide (¬ p.id ∈ (handleMatchEndOp g winnerId).eliminatedPlayers)).length = 1) ∧
    (∀ w, (handleMatchEndOp g winnerId).finalWinnerId = some w →
      w ∈ g.players.map (fun p => p.id) ∧
      ¬ w ∈ (handleMatchEndOp g winnerId).eliminatedPlayers) := by
  obtain ⟨f1, f2, f3, f4⟩ := matchEnd_fold_inv g winnerId g.players []
    g.playerTotalScores g.eliminatedPlayers hE hP
  have hop : handleMatchEndOp g winnerId =
      { g with
        matchScores := g.matchScores ++
          [(g.players.foldl (matchEndStep g winnerId)
            ([], g.playerTotalScores, g.eliminatedPlayers)).1],
        playerTotalScores := (g.players.foldl (matchEndStep g winnerId)
          ([], g.playerTotalScores, g.eliminatedPlayers)).2.1,
        eliminatedPlayers := (g.players.foldl (matchEndStep g winnerId)
          ([], g.playerTotalScores, g.eliminatedPlayers)).2.2,
        finalWinnerId := (match g.players.filter (fun p =>
            decide (¬ p.id ∈ (g.players.foldl (matchEndStep g winnerId)
              ([], g.playerTotalScores, g.eliminatedPlayers)).2.2)) with
          | [r] => some r.id
          | _ => none),
        gameState := "ended" } := by
    unfold handleMatchEndOp
    rw [hS]
    rfl
  refine ⟨?_, ?_, ?_, ?_, ?_⟩
  · rw [hop]
    exact f1
  · intro x hx
    rw [hop]
    exact f2 x hx
  · intro x
    rw [hop]
    exact f4 x
  · have hiff : ∀ (l : List Player),
        (((match l with | [r] => some r.id | _ => none) : Option String).isSome = true) ↔
          l.length = 1 := by
      intro l
      rcases l with _ | ⟨r, _ | ⟨r2, rest⟩⟩ <;> simp
    rw [hop]
    dsimp only
    exact hiff _
  · have hval : ∀ (l : List Player) (w : String),
        (match l with | [r] => some r.id | _ => none) = some w →
          ∃ r, r ∈ l ∧ r.id = w := by
      intro l w hw
      rcases l with _ | ⟨r, _ | ⟨r2, rest⟩⟩
      · simp at hw
      · simp at hw
        exact ⟨r, List.mem_singleton_self r, hw⟩
      · simp at hw
    intro w hw
    rw [hop] at hw
    dsimp only at hw
    obtain ⟨r, hrmem, hrid⟩ := hval _ w hw
    have hfm := List.mem_filter.mp hrmem
    constructor
    · rw [← hrid]
      exact List.mem_map.mpr ⟨r, hfm.1, rfl⟩
    · rw [hop]
      dsimp only
      rw [← hrid]
      simpa using hfm.2

theorem removeById_perm (hand : List UnoCard) (c : UnoCard)
    (hN : (hand.map fun x => x.id).Nodup) (hc : c ∈ hand) :
    hand.Perm (c :: removeById hand c.id) := by
  induction hand with
  | nil => simp at hc
  | cons x xs ih =>
    have hNx : x.id ∉ xs.map fun x => x.id := by
      simp only [List.map_cons, List.nodup_cons] at hN
      exact hN.1
    have hN2 : (xs.map fun x => x.id).Nodup := by
      simp only [List.map_cons, List.nodup_cons] at hN
      exact hN.2
    by_cases hx : x.id = c.id
    · have hxc : x = c := by
        rcases List.mem_cons.mp hc with h | h
        · exact h.symm
        · exact absurd (hx ▸ List.mem_map.mpr ⟨c, h, rfl⟩) hNx
      subst hxc
      unfold removeById
      rw [if_pos rfl]
    · have hcxs : c ∈ xs := by
        rcases List.mem_cons.mp hc with h | h
        · rw [h] at hx
          exact absurd rfl hx
        · exact h
      unfold removeById
      rw [if_neg hx]
      exact ((ih hN2 hcxs).cons x).trans (List.Perm.swap c x _)

theorem removePlayed_perm (cards : List UnoCard) :
    ∀ hand : List UnoCard, (hand.map fun x => x.id).Nodup →
      (cards.map fun x => x.id).Nodup → (∀ c ∈ cards, c ∈ hand) →
      hand.Perm (cards ++ removePlayed hand cards) := by
  induction cards with
  | nil =>
    intro hand _ _ _
    simp [removePlayed]
  | cons c cs ih =>
    intro hand hN hCN hsub
    have hc : c ∈ hand := hsub c (List.mem_cons_self c cs)
    have hperm1 : hand.Perm (c :: removeById hand c.id) := removeById_perm hand c hN hc
    have hpermid : (hand.map fun x => x.id).Perm
        (c.id :: ((removeById hand c.id).map fun x => x.id)) := by
      simpa using hperm1.map (fun x => x.id)
    have hN2 : ((removeById hand c.id).map fun x => x.id).Nodup := by
      have := hpermid.nodup hN
      simp only [List.nodup_cons] at this
      exact this.2
    have hcid : c.id ∉ cs.map fun x => x.id := by
      simp only [List.map_cons, List.nodup_cons] at hCN
      exact hCN.1
    have hCN2 : (cs.map fun x => x.id).Nodup := by
      simp only [List.map_cons, List.nodup_cons] at hCN
      exact hCN.2
    have hsub2 : ∀ d ∈ cs, d ∈ removeById hand c.id := by
      intro d hd
      have hdne : d ≠ c := by
        intro he
        exact hcid (List.mem_map.mpr ⟨d, hd, by rw [he]⟩)
      have hmem : d ∈ c :: removeById hand c.id :=
        hperm1.mem_iff.mp (hsub d (List.mem_cons_of_mem c hd))
      rcases List.mem_cons.mp hmem with h | h
      · exact absurd h hdne
      · exact h
    have ihh := ih (removeById hand c.id) hN2 hCN2 hsub2
    exact hperm1.trans (ihh.cons c)

/-- C10: an accepted play only touches the acting player's hand and the round fields it
names: the draw pile is unchanged, every other player's entry is unchanged in place,
the acting player's entry keeps everything but the hand, the new discard pile is the
old one with the played cards appended in play order, and the new hand is the old hand
minus exactly the played cards (removed by id). -/
theorem executeCardPlay_frame (g : Game) (pid : String) (cards : List UnoCard)
    (chosenColor : Option CardColor) (now : Nat) (actor : Player)
    (hFind : g.players.find? (fun p => decide (p.id = pid)) = some actor)
    (hHand : ∀ c ∈ cards, c ∈ actor.hand)
    (hHN : (actor.hand.map fun x => x.id).Nodup)
    (hCN : (cards.map fun x => x.id).Nodup) :
    (executeCardPlayOp g pid cards chosenColor now).drawPile = g.drawPile ∧
    (executeCardPlayOp g pid cards chosenColor now).discardPile = g.discardPile ++ cards ∧
    (executeCardPlayOp g pid cards chosenColor now).players.length = g.players.length ∧
    (∀ (i : Nat) (p : Player), g.players[i]? = some p → p.id ≠ pid →
      (executeCardPlayOp g pid cards chosenColor now).players[i]? = some p) ∧
    (∀ (i : Nat) (p : Player), g.players[i]? = some p → p.id = pid →
      (executeCardPlayOp g pid cards chosenColor now).players[i]? =
        some { p with hand := removePlayed actor.hand cards }) ∧
    actor.hand.Perm (cards ++ removePlayed actor.hand cards) := by
  have hop : (executeCardPlayOp g pid cards chosenColor now).drawPile = g.drawPile ∧
      (executeCardPlayOp g pid cards chosenColor now).discardPile =
        g.discardPile ++ cards ∧
      (executeCardPlayOp g pid cards chosenColor now).players =
        g.players.map (fun p =>
          if p.id = pid then { p with hand := removePlayed actor.hand cards } else p) := by
    unfold executeCardPlayOp
    rw [hFind]
    exact ⟨rfl, rfl, rfl⟩
  obtain ⟨h1, h2, h3⟩ := hop
  refine ⟨h1, h2, ?_, ?_, ?_, ?_⟩
  · rw [h3, List.length_map]
  · intro i p hp hne
    rw [h3, List.getElem?_map, hp]
    simp [if_neg hne]
  · intro i p hp heq
    rw [h3, List.getElem?_map, hp]
    simp [if_pos heq]
  · exact removePlayed_perm cards actor.hand hHN hCN hHand


/-- C9 witness: at `g9ex` the amended round-end bookkeeping holds. -/
theorem handleMatchEnd_amended_witness :
    g9ex.scoringEnabled = true ∧ g9ex.eliminatedPlayers.Nodup ∧
    (g9ex.players.map fun p => p.id).Nodup ∧
    (handleMatchEndOp g9ex "a").eliminatedPlayers.Nodup ∧
    (∀ x ∈ g9ex.eliminatedPlayers, x ∈ (handleMatchEndOp g9ex "a").eliminatedPlayers) :=
  ⟨by decide, by decide, by decide,
   (handleMatchEnd_amended g9ex "a" (by decide) (by decide) (by decide)).1,
   (handleMatchEnd_amended g9ex "a" (by decide) (by decide) (by decide)).2.1⟩

/-- C10 witness: at `g3ex` playing the two draw-2 cards leaves the draw pile alone,
appends exactly those cards to the discard pile, and the old hand is the played cards
plus the remaining hand. -/
theorem executeCardPlay_frame_witness :
    (g3ex.players.find? (fun p => decide (p.id = "a")) = some playerA3) ∧
    (∀ c ∈ [redDraw2Card, blueDraw2Card], c ∈ playerA3.hand) ∧
    (playerA3.hand.map fun x => x.id).Nodup ∧
    (([redDraw2Card, blueDraw2Card].map fun x => x.id).Nodup) ∧
    (executeCardPlayOp g3ex "a" [redDraw2Card, blueDraw2Card] none 0).drawPile =
      g3ex.drawPile ∧
    (executeCardPlayOp g3ex "a" [redDraw2Card, blueDraw2Card] none 0).discardPile =
      g3ex.discardPile ++ [redDraw2Card, blueDraw2Card] ∧
    playerA3.hand.Perm ([redDraw2Card, blueDraw2Card] ++
      removePlayed playerA3.hand [redDraw2Card, blueDraw2Card]) :=
  ⟨by decide, by decide, by decide, by decide,
   (executeCardPlay_frame g3ex "a" [redDraw2Card, blueDraw2Card] none 0 playerA3
     (by decide) (by decide) (by decide) (by decide)).1,
   (executeCardPlay_frame g3ex "a" [redDraw2Card, blueDraw2Card] none 0 playerA3
     (by decide) (by decide) (by decide) (by decide)).2.1,
   (executeCardPlay_frame g3ex "a" [redDraw2Card, blueDraw2Card] none 0 playerA3
     (by decide) (by decide) (by decide) (by decide)).2.2.2.2.2⟩

theorem dealLoop_spec (ps : List Player) :
    ∀ deck : List UnoCard, 7 * ps.length ≤ deck.length →
      (dealLoop ps deck).2 = deck.drop (7 * ps.length) ∧
      ((dealLoop ps deck).1.map fun e => e.2.length).sum = 7 * ps.length := by
  induction ps with
  | nil => intro deck h; simp [dealLoop]
  | cons p rest ih =>
    intro deck h
    have hcnt : 7 * (rest.length + 1) ≤ deck.length := by
      simpa [List.length_cons] using h
    have hlen : 7 * rest.length ≤ (deck.drop 7).length := by
      simp [List.length_drop]; omega
    obtain ⟨ih1, ih2⟩ := ih (deck.drop 7) hlen
    have hstep : dealLoop (p :: rest) deck =
        ((p.id, deck.take 7) :: (dealLoop rest (deck.drop 7)).1,
         (dealLoop rest (deck.drop 7)).2) := rfl
    rw [hstep]
    constructor
    · rw [ih1, List.drop_drop]
      congr 1
      simp [List.length_cons]
      omega
    · simp only [List.map_cons, List.sum_cons, ih2, List.length_take, List.length_cons]
      omega

/-- C8 (amended): on every round-start path — `createGame`, `startNextMatch`, and the
play-again handler — the initial discard selection pops exactly one card, the top of
the deck remaining after the deal, with no retry and no reshuffle; the card is used
even when it is a wild4 (the starting colour then defaults to red for wild-coloured
cards), and no card is lost: every deck card ends in a dealt hand, the draw pile, or
the single starting discard. -/
theorem roundStart_initial_discard (deck : List UnoCard) (g gs : Game)
    (hostId hostName : String) (sEn : Bool) (sLim : Nat)
    (cCreate cNext cAgain : UnoCard)
    (hlen1 : 8 ≤ deck.length)
    (hc1 : (deck.drop 7).getLast? = some cCreate)
    (hS : gs.scoringEnabled = true)
    (hlen2 : 7 * (gs.players.filter fun p =>
        !decide (p.id ∈ gs.eliminatedPlayers) && p.seated).length + 1 ≤ deck.length)
    (hc2 : (deck.drop (7 * (gs.players.filter fun p =>
        !decide (p.id ∈ gs.eliminatedPlayers) && p.seated).length)).getLast? = some cNext)
    (hlen3 : 7 * g.players.length + 1 ≤ deck.length)
    (hc3 : (deck.drop (7 * g.players.length)).getLast? = some cAgain) :
    (createGameOp deck hostId hostName sEn sLim).discardPile = [cCreate] ∧
    (createGameOp deck hostId hostName sEn sLim).currentColor =
      (if cCreate.color = CardColor.wild then CardColor.red else cCreate.color) ∧
    cardCount (createGameOp deck hostId hostName sEn sLim) = deck.length ∧
    (startNextMatchOp gs deck).discardPile = [cNext] ∧
    (startNextMatchOp gs deck).currentColor =
      (if cNext.color = CardColor.wild then CardColor.red else cNext.color) ∧
    (startNextMatchOp gs deck).drawPile.length + 1 +
      ((dealLoop (gs.players.filter fun p =>
          !decide (p.id ∈ gs.eliminatedPlayers) && p.seated) deck).1.map
        fun e => e.2.length).sum = deck.length ∧
    (newGameOp g deck).discardPile = [cAgain] ∧
    (newGameOp g deck).currentColor =
      (if cAgain.color = CardColor.wild then CardColor.red else cAgain.color) ∧
    (newGameOp g deck).drawPile.length + 1 +
      ((dealLoop g.players deck).1.map fun e => e.2.length).sum = deck.length := by
  obtain ⟨cg1, cg2, cg3⟩ :=
    createGame_initial_discard deck hostId hostName sEn sLim cCreate hlen1 hc1
  have hk2 : 7 * (gs.players.filter fun p =>
      !decide (p.id ∈ gs.eliminatedPlayers) && p.seated).length ≤ deck.length := by omega
  obtain ⟨d21, d22⟩ := dealLoop_spec (gs.players.filter fun p =>
      !decide (p.id ∈ gs.eliminatedPlayers) && p.seated) deck hk2
  have hk3 : 7 * g.players.length ≤ deck.length := by omega
  obtain ⟨d31, d32⟩ := dealLoop_spec g.players deck hk3
  have hs1 : (startNextMatchOp gs deck).discardPile = [cNext] := by
    unfold startNextMatchOp
    rw [if_neg (by simp [hS])]
    dsimp only
    rw [d21, hc2]
    rfl
  have hs2 : (startNextMatchOp gs deck).currentColor =
      (if cNext.color = CardColor.wild then CardColor.red else cNext.color) := by
    unfold startNextMatchOp
    rw [if_neg (by simp [hS])]
    dsimp only
    rw [d21, hc2]
  have hs3 : (startNextMatchOp gs deck).drawPile.length + 1 +
      ((dealLoop (gs.players.filter fun p =>
          !decide (p.id ∈ gs.eliminatedPlayers) && p.seated) deck).1.map
        fun e => e.2.length).sum = deck.length := by
    unfold startNextMatchOp
    rw [if_neg (by simp [hS])]
    dsimp only
    rw [d21, d22]
    simp only [List.length_dropLast, List.length_drop]
    omega
  have hn1 : (newGameOp g deck).discardPile = [cAgain] := by
    unfold newGameOp
    dsimp only
    rw [d31, hc3]
    rfl
  have hn2 : (newGameOp g deck).currentColor =
      (if cAgain.color = CardColor.wild then CardColor.red else cAgain.color) := by
    unfold newGameOp
    dsimp only
    rw [d31, hc3]
  have hn3 : (newGameOp g deck).drawPile.length + 1 +
      ((dealLoop g.players deck).1.map fun e => e.2.length).sum = deck.length := by
    unfold newGameOp
    dsimp only
    rw [d31, d32]
    simp only [List.length_dropLast, List.length_drop]
    omega
  exact ⟨cg1, cg2, cg3, hs1, hs2, hs3, hn1, hn2, hn3⟩

set_option maxRecDepth 1000000 in
/-- C8 witness: the generated deck itself (one possible shuffle) ends in a wild4, and
after the deals of all three start paths that same card is still on top, so each path
starts its round with the wild4 as the discard; the create path loses no card. -/
theorem roundStart_initial_discard_witness :
    8 ≤ generateDeck.length ∧
    (generateDeck.drop 7).getLast? = some wild4LastCard ∧
    g9ex.scoringEnabled = true ∧
    (7 * (g9ex.players.filter fun p =>
        !decide (p.id ∈ g9ex.eliminatedPlayers) && p.seated).length + 1 ≤
      generateDeck.length) ∧
    ((generateDeck.drop (7 * (g9ex.players.filter fun p =>
        !decide (p.id ∈ g9ex.eliminatedPlayers) && p.seated).length)).getLast? =
      some wild4LastCard) ∧
    (7 * g9ex.players.length + 1 ≤ generateDeck.length) ∧
    ((generateDeck.drop (7 * g9ex.players.length)).getLast? = some wild4LastCard) ∧
    (createGameOp generateDeck "h" "H" false 300).discardPile = [wild4LastCard] ∧
    (startNextMatchOp g9ex generateDeck).discardPile = [wild4LastCard] ∧
    (newGameOp g9ex generateDeck).discardPile = [wild4LastCard] ∧
    cardCount (createGameOp generateDeck "h" "H" false 300) = generateDeck.length :=
  ⟨by decide, by rfl, by decide, by decide, by rfl, by decide, by rfl,
   (roundStart_initial_discard generateDeck g9ex g9ex "h" "H" false 300
     wild4LastCard wild4LastCard wild4LastCard
     (by decide) (by rfl) (by decide) (by decide) (by rfl) (by decide) (by rfl)).1,
   (roundStart_initial_discard generateDeck g9ex g9ex "h" "H" false 300
     wild4LastCard wild4LastCard wild4LastCard
     (by decide) (by rfl) (by decide) (by decide) (by rfl) (by decide) (by rfl)).2.2.2.1,
   (roundStart_initial_discard generateDeck g9ex g9ex "h" "H" false 300
     wild4LastCard wild4LastCard wild4LastCard
     (by decide) (by rfl) (by decide) (by decide) (by rfl) (by decide) (by rfl)).2.2.2.2.2.2.1,
   (roundStart_initial_discard generateDeck g9ex g9ex "h" "H" false 300
     wild4LastCard wild4LastCard wild4LastCard
     (by decide) (by rfl) (by decide) (by decide) (by rfl) (by decide) (by rfl)).2.2.1⟩
